import Mathlib

/-!
Verification of the vaux MQTT codec (`vaux-mqtt/src/codec.rs`) and the
client session loop (`vaux-client/src/client.rs`) against the natural
language specification.

Conventions of the embedding:
* Rust byte buffers (`BytesMut`) become `List Nat`, each element a byte value.
* Machine integers become `Nat`; where Rust `u32`/`u16` arithmetic can
  overflow, the model either applies an explicit `% 2^w` or surfaces the
  debug-build overflow panic as an explicit `panicked` result.
* `BytesMut` indexing out of bounds and `get_u8` on an empty buffer panic in
  Rust; the model returns a distinguished `panicked` value in those cases.
* Fallible operations return `Except`/`Option`; infallible Rust signatures
  (such as `encode_variable_len_integer`, which returns `()`) stay total.
-/

namespace Vaux

/-- MQTT control packet type, from `codec.rs` (`enum PacketType`, 15 variants
with discriminants `0x10 ..= 0xf0`). -/
inductive PacketType where
  | Connect
  | ConnAck
  | Publish
  | PubAck
  | PubRec
  | PubRel
  | PubComp
  | Subscribe
  | SubAck
  | Unsubscribe
  | UnsubAck
  | PingReq
  | PingResp
  | Disconnect
  | Auth
deriving DecidableEq, Repr

/-- Discriminant of each `PacketType` variant (`PacketType::Connect = 0x10`,
..., `PacketType::Auth = 0xf0`), used by `packet_type as u8` in `encode`. -/
def PacketType.toByte : PacketType → Nat
  | .Connect => 0x10
  | .ConnAck => 0x20
  | .Publish => 0x30
  | .PubAck => 0x40
  | .PubRec => 0x50
  | .PubRel => 0x60
  | .PubComp => 0x70
  | .Subscribe => 0x80
  | .SubAck => 0x90
  | .Unsubscribe => 0xa0
  | .UnsubAck => 0xb0
  | .PingReq => 0xc0
  | .PingResp => 0xd0
  | .Disconnect => 0xe0
  | .Auth => 0xf0

/-- The conversion `impl From<u8> for PacketType` in `codec.rs`: match on
`val & 0xf0`, with every unlisted high nibble (`0x00` and `0xf0`) falling to
the default arm `PacketType::Auth`. -/
def PacketType.fromByte (val : Nat) : PacketType :=
  match val &&& 0xf0 with
  | 0x10 => .Connect
  | 0x20 => .ConnAck
  | 0x30 => .Publish
  | 0x40 => .PubAck
  | 0x50 => .PubRec
  | 0x60 => .PubRel
  | 0x70 => .PubComp
  | 0x80 => .Subscribe
  | 0x90 => .SubAck
  | 0xa0 => .Unsubscribe
  | 0xb0 => .UnsubAck
  | 0xc0 => .PingReq
  | 0xd0 => .PingResp
  | 0xe0 => .Disconnect
  | _ => .Auth

/-- MQTT reason code, from `codec.rs` (`enum Reason`): a deliberately sparse
one-byte code space (0, 1, 2, 4, 0x10, 0x11, 0x18, 0x19, 0x80 ..= 0xa2). -/
inductive Reason where
  | Success
  | GrantedQoS1
  | GrantedQoS2
  | DisconnectWillMsg
  | NoSubscribers
  | NoSubscriptionExisted
  | ContinueAuth
  | Reauthenticate
  | UnspecifiedErr
  | MalformedPacket
  | ProtocolErr
  | ImplementationErr
  | UnsupportedProtocolVersion
  | InvalidClientId
  | AuthenticationErr
  | Unauthorized
  | ServerUnavailable
  | ServerBusy
  | Banned
  | ServerShutdown
  | AuthMethodErr
  | KeepAliveTimeout
  | SessionTakeOver
  | InvalidTopicFilter
  | InvalidTopicName
  | PacketIdInUse
  | PacketIdNotFound
  | ReceiveMaxExceeded
  | InvalidTopicAlias
  | PacketTooLarge
  | MessageRate
  | QuotaExceeded
  | AdminAction
  | PayloadFormatErr
  | RetainUnsupported
  | QoSUnsupported
  | UseDiffServer
  | ServerMoved
  | SharedSubUnsupported
  | ConnRateExceeded
  | MaxConnectTime
  | SubIdUnsupported
  | WildcardSubUnsupported
deriving DecidableEq, Repr

/-- Numeric value of each `Reason` (the `#[repr(u8)]` discriminants declared
in `codec.rs`). -/
def Reason.toByte : Reason → Nat
  | .Success => 0x00
  | .GrantedQoS1 => 0x01
  | .GrantedQoS2 => 0x02
  | .DisconnectWillMsg => 0x04
  | .NoSubscribers => 0x10
  | .NoSubscriptionExisted => 0x11
  | .ContinueAuth => 0x18
  | .Reauthenticate => 0x19
  | .UnspecifiedErr => 0x80
  | .MalformedPacket => 0x81
  | .ProtocolErr => 0x82
  | .ImplementationErr => 0x83
  | .UnsupportedProtocolVersion => 0x84
  | .InvalidClientId => 0x85
  | .AuthenticationErr => 0x86
  | .Unauthorized => 0x87
  | .ServerUnavailable => 0x88
  | .ServerBusy => 0x89
  | .Banned => 0x8a
  | .ServerShutdown => 0x8b
  | .AuthMethodErr => 0x8c
  | .KeepAliveTimeout => 0x8d
  | .SessionTakeOver => 0x8e
  | .InvalidTopicFilter => 0x8f
  | .InvalidTopicName => 0x90
  | .PacketIdInUse => 0x91
  | .PacketIdNotFound => 0x92
  | .ReceiveMaxExceeded => 0x93
  | .InvalidTopicAlias => 0x94
  | .PacketTooLarge => 0x95
  | .MessageRate => 0x96
  | .QuotaExceeded => 0x97
  | .AdminAction => 0x98
  | .PayloadFormatErr => 0x99
  | .RetainUnsupported => 0x9a
  | .QoSUnsupported => 0x9b
  | .UseDiffServer => 0x9c
  | .ServerMoved => 0x9d
  | .SharedSubUnsupported => 0x9e
  | .ConnRateExceeded => 0x9f
  | .MaxConnectTime => 0xa0
  | .SubIdUnsupported => 0xa1
  | .WildcardSubUnsupported => 0xa2

/-- `impl TryFrom<u8> for Reason` in `codec.rs`: the explicit 43-entry table;
every byte outside the table is a codec error. -/
def Reason.tryFromByte (value : Nat) : Except String Reason :=
  match value with
  | 0x00 => .ok .Success
  | 0x01 => .ok .GrantedQoS1
  | 0x02 => .ok .GrantedQoS2
  | 0x04 => .ok .DisconnectWillMsg
  | 0x10 => .ok .NoSubscribers
  | 0x11 => .ok .NoSubscriptionExisted
  | 0x18 => .ok .ContinueAuth
  | 0x19 => .ok .Reauthenticate
  | 0x80 => .ok .UnspecifiedErr
  | 0x81 => .ok .MalformedPacket
  | 0x82 => .ok .ProtocolErr
  | 0x83 => .ok .ImplementationErr
  | 0x84 => .ok .UnsupportedProtocolVersion
  | 0x85 => .ok .InvalidClientId
  | 0x86 => .ok .AuthenticationErr
  | 0x87 => .ok .Unauthorized
  | 0x88 => .ok .ServerUnavailable
  | 0x89 => .ok .ServerBusy
  | 0x8a => .ok .Banned
  | 0x8b => .ok .ServerShutdown
  | 0x8c => .ok .AuthMethodErr
  | 0x8d => .ok .KeepAliveTimeout
  | 0x8e => .ok .SessionTakeOver
  | 0x8f => .ok .InvalidTopicFilter
  | 0x90 => .ok .InvalidTopicName
  | 0x91 => .ok .PacketIdInUse
  | 0x92 => .ok .PacketIdNotFound
  | 0x93 => .ok .ReceiveMaxExceeded
  | 0x94 => .ok .InvalidTopicAlias
  | 0x95 => .ok .PacketTooLarge
  | 0x96 => .ok .MessageRate
  | 0x97 => .ok .QuotaExceeded
  | 0x98 => .ok .AdminAction
  | 0x99 => .ok .PayloadFormatErr
  | 0x9a => .ok .RetainUnsupported
  | 0x9b => .ok .QoSUnsupported
  | 0x9c => .ok .UseDiffServer
  | 0x9d => .ok .ServerMoved
  | 0x9e => .ok .SharedSubUnsupported
  | 0x9f => .ok .ConnRateExceeded
  | 0xa0 => .ok .MaxConnectTime
  | 0xa1 => .ok .SubIdUnsupported
  | 0xa2 => .ok .WildcardSubUnsupported
  | _ => .error "Invalid reason"

/-- QoS level, from `codec.rs` (`enum QoSLevel`). -/
inductive QoSLevel where
  | AtMostOnce
  | AtLeastOnce
  | ExactlyOnce
deriving DecidableEq, Repr

/-- `impl TryFrom<u8> for QoSLevel` in `codec.rs`: 0, 1, 2 are valid, every
other byte is a codec error. -/
def QoSLevel.tryFromByte (value : Nat) : Except String QoSLevel :=
  match value with
  | 0x00 => .ok .AtMostOnce
  | 0x01 => .ok .AtLeastOnce
  | 0x02 => .ok .ExactlyOnce
  | _ => .error "not a valid QoSLevel"

/-- MQTT fixed header. `fixed.rs` is absent from `src/`; the structure's
fields are taken from the literal `FixedHeader { packet_type, flags,
remaining }` constructions in `codec.rs` and from the spec's data model
(`packet_type`, 4-bit `flags`, `remaining_length`). -/
structure FixedHeader where
  packet_type : PacketType
  flags : Nat
  remaining : Nat
deriving DecidableEq, Repr

/-- Result of `encode_variable_len_integer`: the Rust function returns `()`
and only appends bytes, so the model is a total function to the byte list. -/
def PACKET_RESERVED_NONE : Nat := 0x00

/-- `PACKET_RESERVED_BIT1` from `codec.rs` (the Subscribe fixed-header flag
nibble mandated by MQTT). -/
def PACKET_RESERVED_BIT1 : Nat := 0x02

/-- Recursion worker for `encode_variable_len_integer`. The `fuel` argument
only bounds the recursion depth so that the definition is structural (and
hence kernel-evaluable); `fuel = val + 1` always suffices because the
residual value `val >>> 7` strictly decreases. The body mirrors the Rust
loop: emit `input_val % 0x80`, shift right by 7, set the continuation bit
`0x80` when more digits follow. -/
def encVarIntAux : Nat → Nat → List Nat
  | _, 0 => []
  | val, fuel + 1 =>
    let next_byte := val % 0x80
    if 0 < val >>> 7 then (next_byte ||| 0x80) :: encVarIntAux (val >>> 7) fuel
    else [next_byte]

/-- `encode_variable_len_integer` from `codec.rs`: base-128 digits, low digit
first, high bit of a byte means "more bytes follow". The Rust signature is
`fn(u32, &mut BytesMut)` with no error path: it is total. -/
def encode_variable_len_integer (val : Nat) : List Nat :=
  encVarIntAux val (val + 1)

/-- Outcome of `decode_variable_len_integer`: the decoded value and the
unread rest of the buffer, or a panic (`get_u8` past the end of the buffer,
or a debug-build arithmetic overflow). -/
inductive VarIntResult where
  | ok (value : Nat) (rest : List Nat)
  | panicked
deriving DecidableEq, Repr

/-- Loop of `decode_variable_len_integer` from `codec.rs`:
`result += ((next_byte & 0x7f) as u32) << shift; shift += 7;` until a byte
without the continuation bit. `src.get_u8()` on an exhausted buffer panics;
`<< shift` with `shift >= 32` and a `u32` sum overflow panic in a debug
build, modelled as `panicked`. -/
def decodeVarIntLoop : List Nat → Nat → Nat → VarIntResult
  | [], _, _ => .panicked
  | b :: rest, result, shift =>
    if 32 ≤ shift then .panicked
    else
      let r := result + (b &&& 0x7f) <<< shift
      if 2 ^ 32 ≤ r then .panicked
      else if b &&& 0x80 = 0 then .ok r rest
      else decodeVarIntLoop rest r (shift + 7)

/-- `decode_variable_len_integer` from `codec.rs`: reads the first byte with
`get_u8` (panics on an empty buffer) and then runs the accumulation loop. -/
def decode_variable_len_integer (src : List Nat) : VarIntResult :=
  decodeVarIntLoop src 0 0

/-- Outcome of `decode_fixed_header`: `needMore` is Rust's `Ok(None)`,
`header` is `Ok(Some(header))` together with the bytes left unread after the
header, `err` is `Err(MQTTCodecError)`, and `panicked` models a Rust panic
(out-of-bounds `src[idx]`, or a panic inside the variable-length-integer
decode). -/
inductive FHResult where
  | needMore
  | header (h : FixedHeader) (rest : List Nat)
  | err (msg : String)
  | panicked
deriving DecidableEq, Repr

/-- The `for idx in 1..=3` scan at the top of `decode_fixed_header`. For each
`idx`, Rust indexes `src[idx]` (panicking when `idx` is out of bounds), and
when the byte has the continuation bit set it checks `src.remaining() < 1` —
a condition that can never hold there, since `remaining >= 2` was already
established — before moving to the next index; a byte without the
continuation bit breaks the loop. Returns `some` when the Rust code would
return early (only the panic is actually reachable). -/
def fixedHeaderScan (src : List Nat) : Option FHResult :=
  match checkIdx src 1 with
  | some (some r) => some r
  | some none => none
  | none =>
    match checkIdx src 2 with
    | some (some r) => some r
    | some none => none
    | none =>
      match checkIdx src 3 with
      | some (some r) => some r
      | _ => none
where
  /-- One `idx` step of the scan: `some (some ...)` is an early return,
  `some none` breaks the loop, `none` continues to the next index. The outer
  driver flattens the break and the fall-through, which are identical. -/
  checkIdx (src : List Nat) (idx : Nat) : Option (Option FHResult) :=
    match src.get? idx with
    | none => some (some .panicked)
    | some b =>
      if b &&& 0x80 ≠ 0x00 then
        if src.length < 1 then some (some .needMore) else none
      else some none

/-- `decode_fixed_header` from `codec.rs`. Fewer than 2 buffered bytes is
`Ok(None)`; the continuation-bit scan may panic; the first byte yields the
packet type (high nibble) and flags (low nibble); the variable-length
`remaining` is decoded; a buffer whose leftover length differs from
`remaining` is `Ok(None)` ("not yet fully buffered"). For the packet kinds
that mandate reserved-zero flags the Rust code constructs an
`MQTTCodecError` when `flags != PACKET_RESERVED_NONE` but never returns it
(the value is dropped on the floor), so every such header is accepted; the
model reproduces that by ignoring the constructed error. `Publish` accepts
any flags. The residual `_` arm (reachable only for `PubAck`) is
`Err("unexpected packet type ")`. -/
def decode_fixed_header (src : List Nat) : FHResult :=
  if src.length < 2 then .needMore
  else
    match fixedHeaderScan src with
    | some r => r
    | none =>
      match src with
      | [] => .panicked
      | first_byte :: after_first =>
        let packet_type := PacketType.fromByte first_byte
        let flags := first_byte &&& 0x0f
        match decode_variable_len_integer after_first with
        | .panicked => .panicked
        | .ok remaining rest =>
          if rest.length ≠ remaining then .needMore
          else
            match packet_type with
            | .Connect | .PubRel | .Subscribe | .Unsubscribe =>
              -- Rust builds `MQTTCodecError::new("invalid flags for ...")`
              -- here when `flags != PACKET_RESERVED_NONE`, but the value is
              -- discarded instead of returned.
              .header { packet_type, flags, remaining } rest
            | .ConnAck | .PubRec | .PubComp | .SubAck | .UnsubAck
            | .PingReq | .PingResp | .Disconnect | .Auth =>
              -- Same dropped `MQTTCodecError` construction as above.
              .header { packet_type, flags, remaining } rest
            | .Publish => .header { packet_type, flags, remaining } rest
            | _ => .err "unexpected packet type "

/-! Auxiliary lemmas about the variable-length-integer codec. -/

lemma encVarIntAux_fuel_irrel :
    ∀ f g v, v < f → v < g → encVarIntAux v f = encVarIntAux v g := by
  intro f
  induction f with
  | zero => intro g v hv; omega
  | succ f ih =>
    intro g v hvf hvg
    match g, hvg with
    | g + 1, hvg =>
      show encVarIntAux v (f + 1) = encVarIntAux v (g + 1)
      simp only [encVarIntAux]
      split
      · next hpos =>
        have hlt : v >>> 7 < v := by
          have h0 : 0 < v := by
            rcases Nat.eq_zero_or_pos v with h | h
            · subst h; simp at hpos
            · exact h
          calc v >>> 7 = v / 2 ^ 7 := Nat.shiftRight_eq_div_pow v 7
            _ < v := Nat.div_lt_self h0 (by norm_num)
        exact congrArg _ (ih g (v >>> 7) (by omega) (by omega))
      · rfl

/-- Unfolding equation for `encode_variable_len_integer`, with the fuel
artifact eliminated: one base-128 digit is emitted, with the continuation
bit exactly when `val >>> 7` is still positive. -/
theorem encode_variable_len_integer_eq (v : Nat) :
    encode_variable_len_integer v =
      if 0 < v >>> 7 then ((v % 0x80) ||| 0x80) :: encode_variable_len_integer (v >>> 7)
      else [v % 0x80] := by
  show encVarIntAux v (v + 1) = _
  simp only [encVarIntAux, encode_variable_len_integer]
  split
  · next hpos =>
    have hlt : v >>> 7 < v := by
      have h0 : 0 < v := by
        rcases Nat.eq_zero_or_pos v with h | h
        · subst h; simp at hpos
        · exact h
      calc v >>> 7 = v / 2 ^ 7 := Nat.shiftRight_eq_div_pow v 7
        _ < v := Nat.div_lt_self h0 (by norm_num)
    exact congrArg _ (encVarIntAux_fuel_irrel v (v >>> 7 + 1) (v >>> 7) (by omega) (by omega))
  · rfl

lemma sevenBitFactsFin :
    ∀ x : Fin 128, x.val &&& 0x7f = x.val ∧ x.val &&& 0x80 = 0 ∧
      (x.val ||| 0x80) &&& 0x7f = x.val ∧ (x.val ||| 0x80) &&& 0x80 = 0x80 := by
  decide

lemma sevenBitFacts (x : Nat) (h : x < 128) :
    x &&& 0x7f = x ∧ x &&& 0x80 = 0 ∧
      (x ||| 0x80) &&& 0x7f = x ∧ (x ||| 0x80) &&& 0x80 = 0x80 := by
  simpa using sevenBitFactsFin ⟨x, h⟩

lemma shiftRight7_pos_iff (v : Nat) : 0 < v >>> 7 ↔ 128 ≤ v := by
  rw [Nat.shiftRight_eq_div_pow]
  constructor
  · intro h
    by_contra hc
    push_neg at hc
    rw [Nat.div_eq_of_lt (by norm_num; omega)] at h
    exact absurd h (lt_irrefl 0)
  · intro h
    exact Nat.div_pos (by norm_num; omega) (by norm_num)

/-- Core round-trip lemma: running the decode loop on the encoding of `v`
followed by arbitrary further bytes, from an accumulator `result` at bit
position `shift`, yields `result + v * 2 ^ shift` and consumes exactly the
encoding — provided the `u32` arithmetic of the loop does not overflow,
which holds whenever the final value fits in a `u32`. -/
theorem decodeVarIntLoop_encode :
    ∀ v result shift rest, shift < 32 → result + v * 2 ^ shift < 2 ^ 32 →
      decodeVarIntLoop (encode_variable_len_integer v ++ rest) result shift =
        .ok (result + v * 2 ^ shift) rest := by
  intro v
  induction v using Nat.strong_induction_on with
  | _ v ih =>
    intro result shift rest hshift hov
    rw [encode_variable_len_integer_eq]
    by_cases hpos : 0 < v >>> 7
    · rw [if_pos hpos]
      have h128 : 128 ≤ v := (shiftRight7_pos_iff v).mp hpos
      have hmod : v % 128 < 128 := Nat.mod_lt _ (by norm_num)
      obtain ⟨-, -, hand7, hand8⟩ := sevenBitFacts (v % 128) hmod
      have hle : (v % 128) * 2 ^ shift ≤ v * 2 ^ shift :=
        Nat.mul_le_mul_right _ (Nat.mod_le v 128)
      simp only [List.cons_append, decodeVarIntLoop]
      rw [if_neg (by omega), Nat.shiftLeft_eq, hand7,
        if_neg (by omega), if_neg (by rw [hand8]; omega)]
      have hsr : v >>> 7 = v / 128 := Nat.shiftRight_eq_div_pow v 7
      have hkey : result + v % 128 * 2 ^ shift + v >>> 7 * 2 ^ (shift + 7) =
          result + v * 2 ^ shift := by
        rw [hsr, pow_add]
        have : v / 128 * (2 ^ shift * 2 ^ 7) = v / 128 * 2 ^ 7 * 2 ^ shift := by ring
        rw [this]
        have hdm : v / 128 * 2 ^ 7 + v % 128 = v := by
          have := Nat.div_add_mod v 128
          norm_num
          omega
        calc result + v % 128 * 2 ^ shift + v / 128 * 2 ^ 7 * 2 ^ shift
            = result + (v / 128 * 2 ^ 7 + v % 128) * 2 ^ shift := by ring
          _ = result + v * 2 ^ shift := by rw [hdm]
      have hshift7 : shift + 7 < 32 := by
        have h1 : 2 ^ (shift + 7) ≤ v * 2 ^ shift := by
          rw [pow_add]
          calc 2 ^ shift * 2 ^ 7 = 2 ^ 7 * 2 ^ shift := by ring
            _ ≤ v * 2 ^ shift := Nat.mul_le_mul_right _ (by norm_num; omega)
        have h2 : 2 ^ (shift + 7) < 2 ^ 32 := by omega
        by_contra hc
        push_neg at hc
        have : (2 : Nat) ^ 32 ≤ 2 ^ (shift + 7) := Nat.pow_le_pow_right (by norm_num) hc
        omega
      simp only [List.append_eq]
      rw [ih (v >>> 7) (by rw [hsr]; exact Nat.div_lt_self (by omega) (by norm_num))
        (result + v % 128 * 2 ^ shift) (shift + 7) rest hshift7 (by rw [hkey]; exact hov)]
      rw [hkey]
    · rw [if_neg hpos]
      have h128 : v < 128 := by
        by_contra hc
        push_neg at hc
        exact hpos ((shiftRight7_pos_iff v).mpr hc)
      have hmodeq : v % 128 = v := Nat.mod_eq_of_lt h128
      obtain ⟨hand7, hand8, -, -⟩ := sevenBitFacts v h128
      simp only [List.cons_append, List.nil_append, decodeVarIntLoop]
      rw [hmodeq, if_neg (by omega), Nat.shiftLeft_eq, hand7, if_neg (by omega),
        if_pos hand8]
      rfl

/-- Digit-count lemma for the encoder: a value in `[2 ^ (7 k), 2 ^ (7 (k+1)))`
encodes to exactly `k + 1` bytes. -/
theorem encode_variable_len_integer_length :
    ∀ k v, 2 ^ (7 * k) ≤ v → v < 2 ^ (7 * (k + 1)) →
      (encode_variable_len_integer v).length = k + 1 := by
  intro k
  induction k with
  | zero =>
    intro v _ hub
    rw [encode_variable_len_integer_eq,
      if_neg (by rw [shiftRight7_pos_iff]; norm_num at hub ⊢; omega)]
    rfl
  | succ k ih =>
    intro v hlb hub
    have hsr : v >>> 7 = v / 2 ^ 7 := Nat.shiftRight_eq_div_pow v 7
    have hlb' : 2 ^ (7 * k) ≤ v >>> 7 := by
      rw [hsr, Nat.le_div_iff_mul_le (by norm_num)]
      calc 2 ^ (7 * k) * 2 ^ 7 = 2 ^ (7 * (k + 1)) := by rw [← pow_add]; ring_nf
        _ ≤ v := hlb
    have hub' : v >>> 7 < 2 ^ (7 * (k + 1)) := by
      rw [hsr, Nat.div_lt_iff_lt_mul (by norm_num)]
      calc v < 2 ^ (7 * (k + 2)) := hub
        _ = 2 ^ (7 * (k + 1)) * 2 ^ 7 := by rw [← pow_add]; ring_nf
    have hpos : 0 < v >>> 7 := by
      have : (0:Nat) < 2 ^ (7 * k) := by positivity
      omega
    rw [encode_variable_len_integer_eq, if_pos hpos]
    simp only [List.length_cons]
    rw [ih (v >>> 7) hlb' hub']

/-! Packet payload structures. `connect.rs`, `connack.rs`, `publish.rs`,
`disconnect.rs` and `subscribe.rs` are not present under `src/`; the
structures and their byte-level codecs below are therefore modelled from the
spec (wire format per the public MQTT specification, fields per the spec's
data model). The dispatch in `decode`/`encode` that uses them is translated
from `codec.rs`, which is present. -/

/-- `put_u16`: big-endian 2-byte encoding of a `u16` value. -/
def u16be (n : Nat) : List Nat := [(n / 256) % 256, n % 256]

/-- `encode_utf8_string` from `codec.rs`: strings longer than `u16::MAX`
bytes are an encode error, otherwise a 2-byte big-endian length prefix is
followed by the bytes. Strings are modelled as byte lists. -/
def encode_utf8_string (src : List Nat) : Except String (List Nat) :=
  if src.length > 0xffff then .error "string exceeds max length"
  else .ok (u16be src.length ++ src)

/-- Modelled from the spec: `connect.rs` is absent from `src/`. The CONNECT
body (protocol name, flags, client id, session-expiry property, optional
credentials, §4.2) is kept abstract as its raw encoded bytes; no claim
settled here depends on its internal layout. -/
structure Connect where
  body : List Nat
deriving DecidableEq, Repr

/-- Modelled from the spec: `Connect::encode` — fixed header with type
`0x10` and reserved-zero flags, variable-length body length, then the body. -/
def Connect.encodeBytes (c : Connect) : Except String (List Nat) :=
  .ok (0x10 :: encode_variable_len_integer c.body.length ++ c.body)

/-- Modelled from the spec: `Connect::decode` consumes the rest of the frame
as the body. -/
def connectDecode (rest : List Nat) : Except String Connect :=
  .ok { body := rest }

/-- Modelled from the spec: `connack.rs` is absent from `src/`. A CONNACK
carries the session-present flag, a reason code, and optionally the
broker-assigned client id property (§4.2: mandatory when the client supplied
no local id). -/
structure ConnAck where
  session_present : Bool := false
  reason : Reason := .Success
  assigned_client_id : Option (List Nat) := none
deriving DecidableEq, Repr

/-- Modelled from the spec: CONNACK property block — either empty (length 0)
or a single AssignedClientId (code `0x12`) UTF-8 property. -/
def connAckProps : Option (List Nat) → List Nat
  | none => [0]
  | some id => encode_variable_len_integer (3 + id.length) ++ 0x12 :: u16be id.length ++ id

/-- Modelled from the spec: `ConnAck::encode`. -/
def ConnAck.encodeBytes (c : ConnAck) : Except String (List Nat) :=
  let body := (if c.session_present then 1 else 0) :: c.reason.toByte :: connAckProps c.assigned_client_id
  .ok (0x20 :: encode_variable_len_integer body.length ++ body)

/-- Modelled from the spec: `ConnAck::decode` — acknowledge-flags byte,
reason byte via the `Reason` table of `codec.rs`, then the property block
(only the AssignedClientId property is interpreted). -/
def connAckDecode (rest : List Nat) : Except String ConnAck :=
  match rest with
  | flags :: rb :: props =>
    match Reason.tryFromByte rb with
    | .error e => .error e
    | .ok reason =>
      match props with
      | 0x12 :: lhi :: llo :: idbytes =>
        .ok { session_present := flags &&& 0x01 ≠ 0, reason,
              assigned_client_id := some (idbytes.take (lhi * 256 + llo)) }
      | _ => .ok { session_present := flags &&& 0x01 ≠ 0, reason, assigned_client_id := none }
  | _ => .error "malformed CONNACK"

/-- Modelled from the spec: `disconnect.rs` is absent from `src/`. A
DISCONNECT carries a reason code (zero remaining length means Success). -/
structure Disconnect where
  reason : Reason := .Success
deriving DecidableEq, Repr

/-- Modelled from the spec: `Disconnect::encode`. -/
def Disconnect.encodeBytes (d : Disconnect) : Except String (List Nat) :=
  .ok [0xe0, 0x01, d.reason.toByte]

/-- Modelled from the spec: `Disconnect::decode`. -/
def disconnectDecode (rest : List Nat) : Except String Disconnect :=
  match rest with
  | [] => .ok { reason := .Success }
  | rb :: _ => Reason.tryFromByte rb |>.map fun r => { reason := r }

/-- QoS level as wire bits. -/
def QoSLevel.toByte : QoSLevel → Nat
  | .AtMostOnce => 0
  | .AtLeastOnce => 1
  | .ExactlyOnce => 2

/-- Modelled from the spec: `publish.rs` is absent from `src/`. A PUBLISH
carries the duplicate/QoS/retain flags, an optional packet id (mandatory at
QoS ≥ 1), the topic name and the payload. -/
structure Publish where
  dup : Bool := false
  qos : QoSLevel := .AtMostOnce
  retain : Bool := false
  packet_id : Option Nat := none
  topic_name : List Nat := []
  payload : List Nat := []
deriving DecidableEq, Repr

/-- Modelled from the spec: `Publish::new_from_header` — builds a `Publish`
from the fixed header alone (the call site in `decode` passes only the
header, so the topic, packet id and payload are left at their defaults and
the frame body is never consumed). The QoS bits of the flags are validated
through the `QoSLevel` table of `codec.rs`. -/
def publishNewFromHeader (h : FixedHeader) : Except String Publish :=
  match QoSLevel.tryFromByte ((h.flags >>> 1) &&& 0x03) with
  | .error e => .error e
  | .ok qos =>
    .ok { dup := h.flags &&& 0x08 ≠ 0, qos, retain := h.flags &&& 0x01 ≠ 0 }

/-- Modelled from the spec: `Publish::encode` — first byte `0x30` with the
dup/QoS/retain flag nibble, then topic, packet id when QoS ≥ 1, an empty
property block, and the payload. -/
def Publish.encodeBytes (p : Publish) : Except String (List Nat) :=
  match encode_utf8_string p.topic_name with
  | .error e => .error e
  | .ok topic =>
    let pid := match p.qos, p.packet_id with
      | .AtMostOnce, _ => []
      | _, some id => u16be id
      | _, none => []
    let body := topic ++ pid ++ [0] ++ p.payload
    let flags := (if p.dup then 0x08 else 0) ||| (p.qos.toByte <<< 1) ||| (if p.retain then 1 else 0)
    .ok ((0x30 ||| flags) :: encode_variable_len_integer body.length ++ body)

/-- Modelled from the spec: a single subscription entry (topic filter and
requested QoS). -/
structure Subscription where
  filter : List Nat := []
  qos : QoSLevel := .AtMostOnce
deriving DecidableEq, Repr

/-- Modelled from the spec: `subscribe.rs` is absent from `src/`. A
SUBSCRIBE carries a packet id and a list of subscriptions. -/
structure Subscribe where
  packet_id : Nat := 0
  subscriptions : List Subscription := []
deriving DecidableEq, Repr

/-- Modelled from the spec: the SUBSCRIBE payload — each subscription is a
UTF-8 topic filter followed by an options byte holding the QoS. -/
def subscriptionBytes : List Subscription → Except String (List Nat)
  | [] => .ok []
  | s :: ss =>
    match encode_utf8_string s.filter with
    | .error e => .error e
    | .ok f =>
      match subscriptionBytes ss with
      | .error e => .error e
      | .ok r => .ok (f ++ [s.qos.toByte] ++ r)

/-- Modelled from the spec: `Subscribe::encode` — fixed header with type
`0x80` and the mandated flag nibble `PACKET_RESERVED_BIT1`, then packet id,
an empty property block, and the subscription payload. -/
def Subscribe.encodeBytes (s : Subscribe) : Except String (List Nat) :=
  match subscriptionBytes s.subscriptions with
  | .error e => .error e
  | .ok subs =>
    let body := u16be s.packet_id ++ [0] ++ subs
    .ok ((0x80 ||| PACKET_RESERVED_BIT1) :: encode_variable_len_integer body.length ++ body)

/-- `enum Packet` from `codec.rs`: the closed tagged union of the seven
supported packet kinds. -/
inductive Packet where
  | PingRequest (h : FixedHeader)
  | PingResponse (h : FixedHeader)
  | Connect (c : Connect)
  | ConnAck (c : ConnAck)
  | Publish (p : Publish)
  | Disconnect (d : Disconnect)
  | Subscribe (s : Subscribe)
deriving DecidableEq, Repr

/-- `encode` from `codec.rs`: delegates to the per-kind encoders, except
that `PingRequest`/`PingResponse` are written inline as
`packet_type as u8 | flags` followed by a zero remaining length. -/
def encode (packet : Packet) : Except String (List Nat) :=
  match packet with
  | .Connect c => c.encodeBytes
  | .ConnAck c => c.encodeBytes
  | .Disconnect d => d.encodeBytes
  | .Publish p => p.encodeBytes
  | .PingRequest h => .ok [h.packet_type.toByte ||| h.flags, 0x00]
  | .PingResponse h => .ok [h.packet_type.toByte ||| h.flags, 0x00]
  | .Subscribe s => s.encodeBytes

/-- Outcome of `decode`: Rust's `Ok(None)` / `Ok(Some(packet))` /
`Err(MQTTCodecError)`, plus the explicit panic outcome inherited from
`decode_fixed_header`. -/
inductive DecodeResult where
  | needMore
  | packet (p : Packet)
  | err (msg : String)
  | panicked
deriving DecidableEq, Repr

/-- `decode` from `codec.rs`: decode the fixed header, then dispatch on the
packet type. `PingReq`/`PingResp` wrap the header directly; `Connect`,
`Disconnect` and `ConnAck` run the body decoders; `Publish` is built from
the header only (`Publish::new_from_header` — the body bytes are never
read); every other type, `Subscribe` included, is
`Err("unsupported packet type")`. -/
def decode (src : List Nat) : DecodeResult :=
  match decode_fixed_header src with
  | .panicked => .panicked
  | .err e => .err e
  | .needMore => .needMore
  | .header h rest =>
    match h.packet_type with
    | .PingReq => .packet (.PingRequest h)
    | .PingResp => .packet (.PingResponse h)
    | .Connect =>
      match connectDecode rest with
      | .ok c => .packet (.Connect c)
      | .error e => .err e
    | .Publish =>
      match publishNewFromHeader h with
      | .ok p => .packet (.Publish p)
      | .error e => .err e
    | .Disconnect =>
      match disconnectDecode rest with
      | .ok d => .packet (.Disconnect d)
      | .error e => .err e
    | .ConnAck =>
      match connAckDecode rest with
      | .ok c => .packet (.ConnAck c)
      | .error e => .err e
    | _ => .err "unsupported packet type"

/-! Client session engine, from `vaux-client/src/client.rs`. The `lib.rs`
revision matching `client.rs` is absent from `src/` (the copy present is an
older one whose `ErrorKind::Protocol` carries no reason); `ErrorKind` below
is therefore modelled from the spec's §7 error kinds, which match the usage
in `client.rs` (`ErrorKind::Protocol(reason)`, `ErrorKind::Timeout`, ...). -/

/-- Modelled from the spec (§7) and the usage in `client.rs`: the client
error kinds; `protocol` carries the MQTT reason code. -/
inductive ErrorKind where
  | codec
  | protocol (reason : Reason)
  | connection
  | transport
  | timeout
  | ioError
deriving DecidableEq, Repr

/-- `MqttError` from the client crate: a message and an error kind. -/
structure MqttError where
  message : String
  kind : ErrorKind
deriving DecidableEq, Repr

/-- The packets the session loop of `MqttClient::start` dispatches on.
`client.rs` matches only `Publish`, `PubAck` and `Disconnect` specially;
every other packet kind is covered by `other`. The `tag` fields only serve
to distinguish instances. -/
inductive CPacket where
  | publish (qos : QoSLevel) (packet_id : Option Nat) (tag : Nat)
  | puback (packet_id : Nat)
  | disconnect (reason : Reason)
  | other (tag : Nat)
deriving DecidableEq, Repr

/-- `MAX_QUEUE_LEN` from `client.rs`: capacity of `pending_publish`. -/
def MAX_QUEUE_LEN : Nat := 100

/-- The local state of the session loop in `MqttClient::start`:
`last_packet_id` (u16 counter), `pending_recv_ack`
(`HashMap<u16, Packet>`, modelled as an association list with unique keys),
`pending_publish` (`Vec<Packet>` deferral queue), `qos_1_remaining`
(send credit), the shared `pending_qos1` store
(`Arc<Mutex<Vec<Packet>>>`), and whether the stream has been shut down. -/
structure SessionState where
  last_packet_id : Nat
  pending_recv_ack : List (Nat × CPacket)
  pending_publish : List CPacket
  qos_1_remaining : Nat
  pending_qos1 : List CPacket
  stream_open : Bool
deriving DecidableEq, Repr

/-- The per-client configuration captured by the loop. -/
structure ClientConfig where
  auto_ack : Bool
  auto_packet_id : Bool
  receive_max : Nat
deriving DecidableEq, Repr

/-- `HashMap::insert`: replaces the value when the key is present. -/
def mapInsert (k : Nat) (v : CPacket) (m : List (Nat × CPacket)) : List (Nat × CPacket) :=
  if m.any (fun kv => kv.1 = k) then m.map (fun kv => if kv.1 = k then (k, v) else kv)
  else m ++ [(k, v)]

/-- `HashMap::remove`: the removed value (when present) and the rest. -/
def mapRemove (k : Nat) (m : List (Nat × CPacket)) : Option CPacket × List (Nat × CPacket) :=
  ((m.find? (fun kv => kv.1 = k)).map (fun kv => kv.2),
   m.filter (fun kv => kv.1 ≠ k))

/-- One outcome of `MqttClient::send` for each transmission attempt. The
oracle is the environment's choice of success or I/O failure per attempt;
an exhausted oracle means every further attempt succeeds. -/
def popOracle : List Bool → Bool × List Bool
  | [] => (true, [])
  | b :: rest => (b, rest)

/-- Result of the `pending_publish` drain loop: the remaining queue, the
credit, the unconsumed oracle, and the transmission attempts made (packet
and outcome, in order). -/
structure DrainOut where
  q : List CPacket
  credit : Nat
  oracle : List Bool
  attempts : List (CPacket × Bool)
deriving DecidableEq, Repr

/-- The nested `while !pending_publish.is_empty() && qos_1_remaining > 0`
loops at the end of a loop iteration in `MqttClient::start` (both loops test
the identical condition, so they behave as a single loop). Each iteration
removes the queue head and attempts `MqttClient::send`: on success the code
executes `qos_1_remaining += 1` (it increments, rather than consumes, the
credit); on failure the packet is re-inserted at the front and the loop
re-tests its condition — immediately retrying the same packet. The `fuel`
only bounds recursion so the definition is structural: every iteration
either shrinks the queue (success) or consumes an oracle entry (failure,
since an exhausted oracle defaults to success), so
`q.length + oracle.length + 1` suffices. -/
def drainAux : Nat → List CPacket → Nat → List Bool → DrainOut
  | 0, q, credit, oracle => ⟨q, credit, oracle, []⟩
  | _ + 1, [], credit, oracle => ⟨[], credit, oracle, []⟩
  | _ + 1, p :: q1, 0, oracle => ⟨p :: q1, 0, oracle, []⟩
  | fuel + 1, p :: q1, c + 1, oracle =>
    let (sendOk, o1) := popOracle oracle
    if sendOk then
      let r := drainAux fuel q1 (c + 2) o1
      ⟨r.q, r.credit, r.oracle, (p, true) :: r.attempts⟩
    else
      let r := drainAux fuel (p :: q1) (c + 1) o1
      ⟨r.q, r.credit, r.oracle, (p, false) :: r.attempts⟩

/-- The drain loop with sufficient fuel. -/
def drainPending (q : List CPacket) (credit : Nat) (oracle : List Bool) : DrainOut :=
  drainAux (q.length + oracle.length + 1) q credit oracle

/-- Outcome of one half-iteration of the session loop: continue with a new
state (and the unconsumed oracle), or leave the loop. `panicked` models the
`todo!()` reached on an inbound QoS-2 publish. -/
inductive StepRes where
  | next (st : SessionState) (oracle : List Bool)
  | exitErr (st : SessionState) (e : MqttError)
  | exitOk (st : SessionState)
  | panicked (st : SessionState)
deriving DecidableEq, Repr

/-- The inbound dispatch of the session loop (`match &p` on the result of
`read_next`): `Disconnect` shuts the stream down, flushes `pending_publish`
into the shared `pending_qos1` store and returns a protocol error carrying
the peer's reason (note: `pending_recv_ack` is not flushed); an
`AtLeastOnce` publish with auto-ack sends a PubAck (failure only logged) or,
lacking a packet id, fails with `MalformedPacket`; an `ExactlyOnce` publish
hits `todo!()`; a PubAck removes its entry from `pending_recv_ack` and,
when one was present, restores one credit clamped at `receive_max`;
everything else falls through. Every dispatched packet is then forwarded to
the consumer channel, which this model takes to be open. `none` models a
read timeout (not an error). -/
def inboundStep (cfg : ClientConfig) (st : SessionState) :
    Option CPacket → List Bool → StepRes
  | none, oracle => .next st oracle
  | some p, oracle =>
    match p with
    | .disconnect r =>
      .exitErr { st with stream_open := false,
                         pending_qos1 := st.pending_qos1 ++ st.pending_publish,
                         pending_publish := [] }
        ⟨"disconnect received", .protocol r⟩
    | .publish qos pid _ =>
      match qos with
      | .AtMostOnce => .next st oracle
      | .AtLeastOnce =>
        if cfg.auto_ack then
          match pid with
          | some _ =>
            let (_sendOk, o1) := popOracle oracle
            .next st o1
          | none =>
            .exitErr { st with stream_open := false }
              ⟨"protocol error, no packet ID with QAS > 0", .protocol .MalformedPacket⟩
        else .next st oracle
      | .ExactlyOnce => .panicked st
    | .puback pid =>
      match mapRemove pid st.pending_recv_ack with
      | (some _, m) =>
        let credit := if st.qos_1_remaining < cfg.receive_max
          then st.qos_1_remaining + 1 else st.qos_1_remaining
        .next { st with pending_recv_ack := m, qos_1_remaining := credit } oracle
      | (none, _) => .next st oracle
    | .other _ => .next st oracle

/-- `MqttClient::send` followed by the drain loop, shared by every outbound
path that falls through to the `MqttClient::send(&mut stream, packet)` call:
a failed send is only logged, then the drain of `pending_publish` runs. -/
def sendAndDrain (st : SessionState) (_pkt : CPacket) (oracle : List Bool) : StepRes :=
  let (_sendOk, o1) := popOracle oracle
  let d := drainPending st.pending_publish st.qos_1_remaining o1
  .next { st with pending_publish := d.q, qos_1_remaining := d.credit } d.oracle

/-- The outbound dispatch of the session loop (`packet_send.recv_timeout`
receives a packet): an `AtLeastOnce` publish gets a packet id (auto
increment, or the caller's id, or none with only a log line), is inserted
into `pending_recv_ack` unconditionally, and is transmitted only when
`qos_1_remaining > 0` (consuming one credit); with no credit it is appended
to `pending_publish` when the queue holds fewer than `MAX_QUEUE_LEN`
entries and the iteration `continue`s, while with the queue full the code
falls through and sends the original packet without consuming credit. A
`Disconnect` is sent, the stream is shut down, `pending_publish` is flushed
to the shared store, and the loop returns `Ok(())`. Every other packet is
sent as-is. Every non-`continue` path ends with the drain loop. -/
def outboundStep (cfg : ClientConfig) (st : SessionState) :
    Option CPacket → List Bool → StepRes
  | none, oracle => .next st oracle
  | some pkt, oracle =>
    match pkt with
    | .publish qos pid tag =>
      if qos = .AtLeastOnce then
        let assigned :=
          if cfg.auto_packet_id then
            let id := (st.last_packet_id + 1) % 65536
            (CPacket.publish qos (some id) tag,
             { st with last_packet_id := id,
                       pending_recv_ack :=
                         mapInsert id (CPacket.publish qos (some id) tag) st.pending_recv_ack })
          else
            match pid with
            | some id =>
              (pkt, { st with pending_recv_ack := mapInsert id pkt st.pending_recv_ack })
            | none => (pkt, st)
        let pNew := assigned.1
        let st1 := assigned.2
        if 0 < st1.qos_1_remaining then
          sendAndDrain { st1 with qos_1_remaining := st1.qos_1_remaining - 1 } pNew oracle
        else if st1.pending_publish.length < MAX_QUEUE_LEN then
          .next { st1 with pending_publish := st1.pending_publish ++ [pNew] } oracle
        else
          sendAndDrain st1 pkt oracle
      else
        sendAndDrain st pkt oracle
    | .disconnect _ =>
      let (_sendOk, o1) := popOracle oracle
      let _ := o1
      .exitOk { st with stream_open := false,
                        pending_qos1 := st.pending_qos1 ++ st.pending_publish,
                        pending_publish := [] }
    | _ => sendAndDrain st pkt oracle

/-- One full iteration of the session loop: the inbound read attempt, then
the outbound queue poll, sharing one send-outcome oracle. -/
structure LoopIter where
  inbound : Option CPacket
  outbound : Option CPacket
  oracle : List Bool
deriving DecidableEq, Repr

/-- How a finished run left the loop. -/
inductive LoopExit where
  | errExit (e : MqttError)
  | okExit
  | panicExit
deriving DecidableEq, Repr

/-- Run the session loop over a finite schedule of iterations, returning the
final state and, when the loop returned during the schedule, how. -/
def runLoop (cfg : ClientConfig) : List LoopIter → SessionState →
    SessionState × Option LoopExit
  | [], st => (st, none)
  | it :: rest, st =>
    match inboundStep cfg st it.inbound it.oracle with
    | .exitErr st' e => (st', some (.errExit e))
    | .exitOk st' => (st', some .okExit)
    | .panicked st' => (st', some .panicExit)
    | .next st' o1 =>
      match outboundStep cfg st' it.outbound o1 with
      | .exitErr st'' e => (st'', some (.errExit e))
      | .exitOk st'' => (st'', some .okExit)
      | .panicked st'' => (st'', some .panicExit)
      | .next st'' _ => runLoop cfg rest st''

/-- The loop-local state as initialized at the top of the spawned thread in
`MqttClient::start`: empty `pending_recv_ack`, credit `receive_max`, and
`pending_publish` seeded by draining the shared `pending_qos1` store
(`pending_publish.append(&mut pending_qos1.lock().unwrap())` moves the
store's contents and leaves it empty). -/
def initSession (receive_max last_packet_id : Nat) (store : List CPacket) : SessionState :=
  { last_packet_id, pending_recv_ack := [], pending_publish := store,
    qos_1_remaining := receive_max, pending_qos1 := [], stream_open := true }

/-- `MqttClient::handle_connack` from `client.rs`: on a reason other than
`Success` set `connected = false` and fail with a protocol error carrying
that reason; on success set `connected = true` and, when no local client id
was set, require the broker-assigned client id property (its absence is an
`InvalidClientId` protocol error). Returns the updated `connected` flag and
client id alongside the result. -/
def handle_connack (connack : ConnAck) (_connected : Bool) (client_id : Option (List Nat)) :
    Bool × Option (List Nat) × Except MqttError ConnAck :=
  let client_id_set := client_id.isSome
  if connack.reason ≠ Reason.Success then
    (false, client_id, .error ⟨"connection refused", .protocol connack.reason⟩)
  else if ¬ client_id_set then
    match connack.assigned_client_id with
    | some id => (true, some id, .ok connack)
    | none => (true, client_id, .error ⟨"no assigned client id", .protocol .InvalidClientId⟩)
  else (true, client_id, .ok connack)

/-- One poll of the wait loop in `MqttClient::try_start`: while not
connected, a populated `last_error` slot is returned to the caller (the
thread is joined first and its result — the same error stored by the start
thread — propagates); only otherwise does an exceeded `max_wait` budget
produce the distinct timeout error; `none` means keep polling. -/
def tryStartPoll (connected : Bool) (last_error : Option MqttError) (timed_out : Bool) :
    Option (Except MqttError Unit) :=
  if connected then some (.ok ())
  else
    match last_error with
    | some e => some (.error e)
    | none =>
      if timed_out then some (.error ⟨"timeout waiting for connection", .timeout⟩)
      else none

/-- Round-trip of the full codec: encode, then feed the bytes to `decode`. -/
def roundTrip (p : Packet) : DecodeResult :=
  match encode p with
  | .ok bs => decode bs
  | .error e => .err e

lemma pingByteFactsFin :
    ∀ f : Fin 16, (0xc0 ||| f.val) &&& 0xf0 = 0xc0 ∧ (0xc0 ||| f.val) &&& 0x0f = f.val ∧
      (0xd0 ||| f.val) &&& 0xf0 = 0xd0 ∧ (0xd0 ||| f.val) &&& 0x0f = f.val := by
  decide

/-! Claim theorems. -/

/-- C10: `PacketType::from(u8)` is total, depends only on the high nibble of
its argument (`from(b) = from(b & 0xF0)` for every byte), and maps every
byte whose high nibble is not one of the fourteen assigned codes — in
particular the reserved nibble `0x0`, and `0xf0` itself — to
`PacketType::Auth` rather than rejecting it. -/
theorem claim_C10_packet_type_from_high_nibble :
    ∀ b : Fin 256,
      PacketType.fromByte b.val = PacketType.fromByte (b.val &&& 0xf0) ∧
      ((b.val &&& 0xf0 = 0x00 ∨ b.val &&& 0xf0 = 0xf0) →
        PacketType.fromByte b.val = .Auth) := by
  set_option maxRecDepth 4000 in decide

/-- Witness for C10 at the concrete byte `0x05` (reserved high nibble). -/
theorem claim_C10_witness :
    PacketType.fromByte 0x05 = PacketType.fromByte (0x05 &&& 0xf0) ∧
      PacketType.fromByte 0x05 = .Auth :=
  ⟨(claim_C10_packet_type_from_high_nibble ⟨0x05, by decide⟩).1,
   (claim_C10_packet_type_from_high_nibble ⟨0x05, by decide⟩).2 (Or.inl (by decide))⟩

/-- C5: `encode_variable_len_integer 128 = [0x80, 0x01]`,
`encode_variable_len_integer 777 = [0x89, 0x06]`, and for every value in
`0 ..= 268435455` the decoder is the exact inverse of the encoder (the
whole encoding is consumed). -/
theorem claim_C5_var_int_codec :
    encode_variable_len_integer 128 = [0x80, 0x01] ∧
    encode_variable_len_integer 777 = [0x89, 0x06] ∧
    ∀ v : Nat, v ≤ 268435455 →
      decode_variable_len_integer (encode_variable_len_integer v) = .ok v [] := by
  refine ⟨by decide, by decide, ?_⟩
  intro v hv
  have h := decodeVarIntLoop_encode v 0 0 [] (by norm_num) (by norm_num; omega)
  simpa [decode_variable_len_integer] using h

/-- Witness for C5 at the top of the claimed range. -/
theorem claim_C5_witness :
    268435455 ≤ 268435455 ∧
      decode_variable_len_integer (encode_variable_len_integer 268435455) =
        .ok 268435455 [] :=
  ⟨le_refl _, claim_C5_var_int_codec.2.2 268435455 (le_refl _)⟩

/-- C6 counterexample: at the concrete out-of-range value `2 ^ 28`,
`encode_variable_len_integer` produces a 5-byte encoding instead of failing
— the Rust function returns `()` and has no error path at all, so the claim
that out-of-range values are reported as an encode error is false. -/
theorem claim_C6_counterexample :
    encode_variable_len_integer 268435456 = [0x80, 0x80, 0x80, 0x80, 0x01] ∧
      (encode_variable_len_integer 268435456).length = 5 := by
  decide

/-- C6 amended: `encode_variable_len_integer` never fails; for every value
above `0xFFFFFFF` (within the `u32` domain) it silently emits a five-byte
encoding, one byte more than the four-byte maximum of the MQTT format. -/
theorem claim_C6_out_of_range_encodes_five_bytes :
    ∀ v : Nat, 2 ^ 28 ≤ v → v < 2 ^ 32 →
      (encode_variable_len_integer v).length = 5 := by
  intro v h1 h2
  have := encode_variable_len_integer_length 4 v (by norm_num; omega)
    (by norm_num; omega)
  simpa using this

/-- Witness for C6 amended at `2 ^ 28`. -/
theorem claim_C6_witness :
    2 ^ 28 ≤ 268435456 ∧ 268435456 < 2 ^ 32 ∧
      (encode_variable_len_integer 268435456).length = 5 :=
  ⟨by norm_num, by norm_num,
   claim_C6_out_of_range_encodes_five_bytes 268435456 (by norm_num) (by norm_num)⟩

/-- C2: `decode_fixed_header` accepts Connect, Subscribe and PingReq frames
whose reserved flag nibble is non-zero — the invalid-flags `MQTTCodecError`
is constructed but never returned — contradicting the claim that such
frames are rejected; a Publish frame with an arbitrary flag nibble is
accepted (that part of the claim holds). -/
theorem claim_C2_reserved_flags_not_rejected :
    decode_fixed_header [0x11, 0x00] = .header ⟨.Connect, 0x01, 0⟩ [] ∧
    decode_fixed_header [0x8f, 0x00] = .header ⟨.Subscribe, 0x0f, 0⟩ [] ∧
    decode_fixed_header [0xc1, 0x00] = .header ⟨.PingReq, 0x01, 0⟩ [] ∧
    decode_fixed_header [0x3d, 0x00] = .header ⟨.Publish, 0x0d, 0⟩ [] := by
  decide

/-- C4: feeding `decode_fixed_header` the 2-byte strict prefix
`[0x30, 0x80]` of a valid 131-byte Publish frame does not return the
"need more data" result — it panics (`src[2]` is indexed out of bounds by
the continuation-bit scan, whose `src.remaining() < 1` guard can never
fire). The second conjunct shows the full frame is valid: decoded in one
shot it yields the Publish header. -/
theorem claim_C4_truncated_frame_panics :
    decode_fixed_header [0x30, 0x80] = .panicked ∧
    decode_fixed_header ([0x30, 0x80, 0x01] ++ List.replicate 128 0) =
      .header ⟨.Publish, 0x00, 128⟩ (List.replicate 128 0) := by
  refine ⟨by decide, ?_⟩
  set_option maxRecDepth 4000 in decide

/-- C3 counterexample: for the concrete Subscribe packet with packet id 1
and a single subscription, `decode (encode p)` is
`Err("unsupported packet type")` — `decode` has no Subscribe arm — so the
claimed round-trip `decode (encode p) = p` fails for the Subscribe kind. -/
theorem claim_C3_counterexample :
    encode (.Subscribe ⟨1, [⟨[0x61], .AtMostOnce⟩]⟩) =
      .ok [0x82, 7, 0, 1, 0, 0, 1, 0x61, 0] ∧
    decode [0x82, 7, 0, 1, 0, 0, 1, 0x61, 0] = .err "unsupported packet type" ∧
    decode [0x82, 7, 0, 1, 0, 0, 1, 0x61, 0] ≠
      .packet (.Subscribe ⟨1, [⟨[0x61], .AtMostOnce⟩]⟩) := by
  refine ⟨rfl, rfl, ?_⟩
  intro h
  simp [show decode [0x82, 7, 0, 1, 0, 0, 1, 0x61, 0] =
    .err "unsupported packet type" from rfl] at h

/-- C3 amended: the round-trip `decode (encode p) = p` holds for
`PingRequest` and `PingResponse` packets with a canonical fixed header
(matching packet type, 4-bit flags, zero remaining length); it fails for
`Subscribe`, which `decode` rejects as an unsupported packet type. -/
theorem claim_C3_ping_round_trip :
    ∀ f : Nat, f < 16 →
      roundTrip (.PingRequest ⟨.PingReq, f, 0⟩) =
        .packet (.PingRequest ⟨.PingReq, f, 0⟩) ∧
      roundTrip (.PingResponse ⟨.PingResp, f, 0⟩) =
        .packet (.PingResponse ⟨.PingResp, f, 0⟩) := by
  intro f hf
  interval_cases f <;> exact ⟨by decide, by decide⟩

/-- Witness for C3 amended at flags `0`. -/
theorem claim_C3_witness :
    (0 : Nat) < 16 ∧
      (roundTrip (.PingRequest ⟨.PingReq, 0, 0⟩) =
          .packet (.PingRequest ⟨.PingReq, 0, 0⟩) ∧
        roundTrip (.PingResponse ⟨.PingResp, 0, 0⟩) =
          .packet (.PingResponse ⟨.PingResp, 0, 0⟩)) :=
  ⟨by norm_num, claim_C3_ping_round_trip 0 (by norm_num)⟩

/-- C1: with `receive_max = 1`, enqueueing two QoS-1 publishes back-to-back
drives `pending_recv_ack` to two entries (the loop inserts into
`pending_recv_ack` before checking credit), violating
`|pending_recv_ack| ≤ receive_max`; and after a PubAck for the first
publish arrives and any other packet is sent, the drain loop's
`qos_1_remaining += 1` on a successful send drives the credit to 2, above
`receive_max` — credit is restored, not consumed, by transmitting a
deferred publish. -/
theorem claim_C1_flow_control_violated :
    (runLoop ⟨true, true, 1⟩
        [⟨none, some (.publish .AtLeastOnce none 0), []⟩,
         ⟨none, some (.publish .AtLeastOnce none 1), []⟩]
        (initSession 1 0 [])).1.pending_recv_ack.length = 2 ∧
    (runLoop ⟨true, true, 1⟩
        [⟨none, some (.publish .AtLeastOnce none 0), []⟩,
         ⟨none, some (.publish .AtLeastOnce none 1), []⟩,
         ⟨some (.puback 1), some (.other 0), []⟩]
        (initSession 1 0 [])).1.qos_1_remaining = 2 := by
  decide

/-- C7 counterexample: with `receive_max = 1`, one QoS-1 publish is
enqueued and transmitted (it sits in `pending_recv_ack` awaiting its
PubAck); the peer then sends a Disconnect. The session exits with the
peer's reason as a protocol error and the stream shut down, but the shared
`pending_qos1` store stays empty: the in-flight publish is not recovered —
only `pending_publish` (never-transmitted deferrals) is flushed. -/
theorem claim_C7_counterexample :
    (runLoop ⟨true, true, 1⟩
        [⟨none, some (.publish .AtLeastOnce none 7), []⟩,
         ⟨some (.disconnect .ProtocolErr), none, []⟩]
        (initSession 1 0 [])) =
      ({ last_packet_id := 1,
         pending_recv_ack := [(1, .publish .AtLeastOnce (some 1) 7)],
         pending_publish := [], qos_1_remaining := 0, pending_qos1 := [],
         stream_open := false },
       some (.errExit ⟨"disconnect received", .protocol .ProtocolErr⟩)) := by
  rfl

/-- C7 amended: on an inbound Disconnect the loop shuts the stream down,
flushes exactly the deferred `pending_publish` queue into the shared
`pending_qos1` store, and exits with a protocol error tagged with the
peer's reason; entries of `pending_recv_ack` (publishes already
transmitted and awaiting PubAck) are not recovered. -/
theorem claim_C7_disconnect_flushes_deferred_only :
    ∀ (cfg : ClientConfig) (st : SessionState) (r : Reason) (oracle : List Bool),
      inboundStep cfg st (some (.disconnect r)) oracle =
        .exitErr { st with stream_open := false,
                           pending_qos1 := st.pending_qos1 ++ st.pending_publish,
                           pending_publish := [] }
          ⟨"disconnect received", .protocol r⟩ :=
  fun _ _ _ _ => rfl

/-- C9: with one deferred publish, one credit, and a send that fails once
and then succeeds, the drain loop attempts the same packet twice within a
single invocation — a failed transmission is re-inserted at the front and
immediately retried inline in the same loop iteration, not deferred to a
later iteration (and the successful send increments the credit to 2). -/
theorem claim_C9_failed_send_retried_inline :
    drainPending [.publish .AtLeastOnce (some 3) 9] 1 [false, true] =
      ⟨[], 2, [],
       [(.publish .AtLeastOnce (some 3) 9, false),
        (.publish .AtLeastOnce (some 3) 9, true)]⟩ := by
  rfl

/-- C8: when the broker's CONNACK carries a reason other than `Success`,
`handle_connack` leaves the connected flag `false` and fails with a
protocol error carrying exactly that reason; the `try_start` wait loop,
polling with that error stored in the shared `last_error` slot, surfaces
the same protocol error to the caller — even when the wait budget has
already elapsed — and that error is not the timeout kind. -/
theorem claim_C8_connack_failure_surfaces_reason :
    ∀ (connack : ConnAck) (connected : Bool) (client_id : Option (List Nat))
      (timed_out : Bool),
      connack.reason ≠ Reason.Success →
      (handle_connack connack connected client_id).1 = false ∧
      (handle_connack connack connected client_id).2.2 =
        .error ⟨"connection refused", .protocol connack.reason⟩ ∧
      tryStartPoll false (some ⟨"connection refused", .protocol connack.reason⟩)
          timed_out =
        some (.error ⟨"connection refused", .protocol connack.reason⟩) ∧
      ErrorKind.protocol connack.reason ≠ ErrorKind.timeout := by
  intro ca conn cid t h
  refine ⟨?_, ?_, rfl, ?_⟩
  · simp [handle_connack, h]
  · simp [handle_connack, h]
  · intro hc
    exact ErrorKind.noConfusion hc

/-- Witness for C8 with a concrete refused CONNACK (`ServerBusy`). -/
theorem claim_C8_witness :
    (ConnAck.mk false .ServerBusy none).reason ≠ Reason.Success ∧
      ((handle_connack ⟨false, .ServerBusy, none⟩ false (some [0x61])).1 = false ∧
        (handle_connack ⟨false, .ServerBusy, none⟩ false (some [0x61])).2.2 =
          .error ⟨"connection refused", .protocol .ServerBusy⟩ ∧
        tryStartPoll false (some ⟨"connection refused", .protocol .ServerBusy⟩) true =
          some (.error ⟨"connection refused", .protocol .ServerBusy⟩) ∧
        ErrorKind.protocol .ServerBusy ≠ ErrorKind.timeout) :=
  ⟨by decide,
   claim_C8_connack_failure_surfaces_reason ⟨false, .ServerBusy, none⟩ false
     (some [0x61]) true (by decide)⟩

end Vaux
